import Mathlib

/-!
Shallow embedding of the reconciling state controller of the todo
single-page application (src/todo_frontend/src/App.js), together with
proofs about its optimistic-update / rollback behaviour.

The embedding follows the source file closely:
* `apiFetch` models the response handling of the `apiFetch` helper
  (App.js lines 11-26): non-ok responses raise an error built from the
  body text or a generic status message, a 204 response yields `null`,
  everything else is parsed as JSON.
* The `setTodos` updater passed in each handler becomes a pure function
  on `List Task` (`toggleOptimistic`, `toggleReconcile`, `toggleRollback`,
  `editOptimistic`, `editReconcile`, `editRollback`, `addTaskSuccess`,
  `deleteTaskSuccess`).
* Each CRUD handler of the `App` component becomes a function on
  `AppState` taking the settled outcome of its remote call
  (`addTask`, `deleteTask`, `toggleTask`, `editTask`, `loadTasks`);
  the portion executed before the `await` is split out as a
  `...Start` function so that statements about the in-flight state can
  be made.
* `NewTaskInput.submit` (App.js lines 55-65) becomes `submit`,
  returning the title of the create request it issues, if any.
-/

namespace TodoApp

/-- A task identifier.  The backend may assign string or numeric ids;
JavaScript strict equality never identifies a string with a number,
which the disjoint constructors reflect. -/
inductive TaskId where
  | str (s : String)
  | num (n : Int)
deriving DecidableEq, Repr

/-- A todo record as exchanged with the backend: an id, a title and a
completion flag. -/
structure Task where
  id : TaskId
  title : String
  completed : Bool
deriving DecidableEq, Repr

/-- An HTTP response as `apiFetch` observes it: the status code, the
result of `res.text()` (`none` when reading the body rejects) and the
result of `res.json()` (`none` when parsing rejects).  `α` is the type
of the decoded payload. -/
structure HttpResponse (α : Type) where
  status : Nat
  bodyText : Option String
  parsedJson : Option α
deriving DecidableEq, Repr

/-- `res.ok` of the fetch API: true exactly when the status is in the
2xx range. -/
def HttpResponse.ok {α : Type} (res : HttpResponse α) : Bool :=
  200 ≤ res.status && res.status < 300

/-- Result of a call through `apiFetch`: a decoded value, `none` for an
empty (204) result, or a raised error message. -/
inductive ApiResult (α : Type) where
  | ok (value : Option α)
  | error (msg : String)
deriving DecidableEq, Repr

/-- Response handling of `apiFetch` (App.js lines 11-26): when the
response is not ok, read the body text (an empty string when reading
fails) and raise it, or a generic message naming the status when the
text is empty; a 204 response returns `null` without touching the body;
otherwise the JSON-decoded body is returned, a decode failure raising. -/
def apiFetch {α : Type} (res : HttpResponse α) : ApiResult α :=
  if !res.ok then
    let text := res.bodyText.getD ""
    ApiResult.error
      (if text = "" then "Request failed with status " ++ toString res.status else text)
  else if res.status = 204 then
    ApiResult.ok none
  else
    match res.parsedJson with
    | some v => ApiResult.ok (some v)
    | none => ApiResult.error "Unexpected end of JSON input"

/-- The settled outcome of a remote call as a handler observes it:
either the decoded value or the message of the raised error. -/
inductive Outcome (α : Type) where
  | ok (value : α)
  | failure (msg : String)
deriving DecidableEq, Repr

/-- `e.message || fallback`: the raised message, or the fallback when
the message is empty. -/
def errMessage (msg fallback : String) : String :=
  if msg = "" then fallback else msg

/-- The optimistic flip of `toggleTask` (App.js lines 257-259): every
entry whose id matches the toggled item has its `completed` flag
negated, every other entry is kept. -/
def toggleOptimistic (item : Task) (todos : List Task) : List Task :=
  todos.map fun t => if t.id = item.id then { t with completed := !t.completed } else t

/-- The reconciliation of `toggleTask` (App.js line 266): every entry
whose id matches the server response is replaced by that response. -/
def toggleReconcile (updated : Task) (todos : List Task) : List Task :=
  todos.map fun t => if t.id = updated.id then updated else t

/-- The rollback of `toggleTask` (App.js lines 269-271): every entry
whose id matches the toggled item has its `completed` flag restored to
the pre-toggle value carried by `item`. -/
def toggleRollback (item : Task) (todos : List Task) : List Task :=
  todos.map fun t => if t.id = item.id then { t with completed := item.completed } else t

/-- The `byId` memoized map (App.js lines 232-236): `Map.set` is applied
in list order, so a later entry with the same id overwrites an earlier
one and a lookup returns the last matching entry. -/
def byId (todos : List Task) (id : TaskId) : Option Task :=
  todos.foldl (fun acc t => if t.id = id then some t else acc) none

/-- The optimistic title replacement of `editTask` (App.js line 281). -/
def editOptimistic (id : TaskId) (title : String) (todos : List Task) : List Task :=
  todos.map fun t => if t.id = id then { t with title := title } else t

/-- The reconciliation of `editTask` (App.js line 287). -/
def editReconcile (id : TaskId) (updated : Task) (todos : List Task) : List Task :=
  todos.map fun t => if t.id = id then updated else t

/-- The rollback of `editTask` (App.js line 290): every entry whose id
matches is replaced wholesale by the pre-edit snapshot. -/
def editRollback (id : TaskId) (existing : Task) (todos : List Task) : List Task :=
  todos.map fun t => if t.id = id then existing else t

/-- The success update of `addTask` (App.js line 245): the created task
is prepended. -/
def addTaskSuccess (created : Task) (todos : List Task) : List Task :=
  created :: todos

/-- The success update of `deleteTask` (App.js line 251): entries whose
id differs from the deleted id are kept. -/
def deleteTaskSuccess (id : TaskId) (todos : List Task) : List Task :=
  todos.filter fun t => t.id != id

/-- The state owned by the `App` component: the ordered collection, the
loading flag and the last error message (empty string meaning no
displayable error, as the render shows the error box only when `err`
is non-empty). -/
structure AppState where
  todos : List Task
  loading : Bool
  err : String
deriving DecidableEq, Repr

/-- `addTask` before its `await` (App.js line 240): only the error
message is cleared; no optimistic placeholder is inserted. -/
def addStart (s : AppState) : AppState :=
  { s with err := "" }

/-- `addTask` after its remote call settles (App.js lines 241-245): on
success the created task is prepended; the handler has no try/catch, so
a failure propagates to the caller without touching the state and
without setting an error message. -/
def addSettle (outcome : Outcome Task) (s : AppState) : AppState :=
  match outcome with
  | Outcome.ok created => { s with todos := addTaskSuccess created s.todos }
  | Outcome.failure _ => s

/-- The full settled run of `addTask` (App.js lines 239-246).  The
title argument only forms the request body; the server response is the
outcome. -/
def addTask (title : String) (outcome : Outcome Task) (s : AppState) : AppState :=
  let _ := title
  addSettle outcome (addStart s)

/-- `deleteTask` before its `await` (App.js line 249): only the error
message is cleared; no optimistic removal happens. -/
def deleteStart (s : AppState) : AppState :=
  { s with err := "" }

/-- `deleteTask` after its remote call settles (App.js lines 250-251):
on success the entry is removed by id; the handler has no try/catch, so
a failure propagates to the caller without touching the state and
without setting an error message. -/
def deleteSettle (id : TaskId) (outcome : Outcome Unit) (s : AppState) : AppState :=
  match outcome with
  | Outcome.ok _ => { s with todos := deleteTaskSuccess id s.todos }
  | Outcome.failure _ => s

/-- The full settled run of `deleteTask` (App.js lines 248-252). -/
def deleteTask (id : TaskId) (outcome : Outcome Unit) (s : AppState) : AppState :=
  deleteSettle id outcome (deleteStart s)

/-- `toggleTask` before its `await` (App.js lines 255-259): the error
message is cleared and the optimistic flip is applied. -/
def toggleStart (item : Task) (s : AppState) : AppState :=
  { s with err := "", todos := toggleOptimistic item s.todos }

/-- `toggleTask` after its remote call settles (App.js lines 261-273):
on success the server response replaces the matching entry; on failure
the `completed` flag is rolled back and the error message is set to the
raised message or a fallback. -/
def toggleSettle (item : Task) (outcome : Outcome Task) (s : AppState) : AppState :=
  match outcome with
  | Outcome.ok updated => { s with todos := toggleReconcile updated s.todos }
  | Outcome.failure msg =>
      { s with todos := toggleRollback item s.todos,
               err := errMessage msg "Failed to toggle task" }

/-- The full settled run of `toggleTask` (App.js lines 254-274). -/
def toggleTask (item : Task) (outcome : Outcome Task) (s : AppState) : AppState :=
  toggleSettle item outcome (toggleStart item s)

/-- `editTask` before its `await` (App.js lines 277-281): the error
message is cleared, then the entry is looked up by id; when absent the
handler returns at once, otherwise the optimistic title replacement is
applied. -/
def editStart (id : TaskId) (title : String) (s : AppState) : AppState :=
  match byId s.todos id with
  | none => { s with err := "" }
  | some _ => { s with err := "", todos := editOptimistic id title s.todos }

/-- `editTask` after its remote call settles (App.js lines 282-292):
on success the server response replaces the matching entry; on failure
the pre-edit snapshot `existing` replaces it wholesale and the error
message is set. -/
def editSettle (id : TaskId) (existing : Task) (outcome : Outcome Task)
    (s : AppState) : AppState :=
  match outcome with
  | Outcome.ok updated => { s with todos := editReconcile id updated s.todos }
  | Outcome.failure msg =>
      { s with todos := editRollback id existing s.todos,
               err := errMessage msg "Failed to update task" }

/-- The full settled run of `editTask` (App.js lines 276-293): when no
entry with the id exists, no remote call is made and only the error
message is cleared. -/
def editTask (id : TaskId) (title : String) (outcome : Outcome Task)
    (s : AppState) : AppState :=
  match byId s.todos id with
  | none => { s with err := "" }
  | some existing => editSettle id existing outcome (editStart id title s)

/-- The initial load effect before its `await` (App.js lines 217-218):
the error message is cleared and the loading flag raised. -/
def loadStart (s : AppState) : AppState :=
  { s with err := "", loading := true }

/-- The full settled run of the initial load (App.js lines 213-230) in
the still-mounted case: on success the collection is replaced by the
fetched list (`null` becoming the empty list), on failure the error
message is set and the collection is left as it was; the loading flag
is always cleared afterwards. -/
def loadTasks (outcome : Outcome (Option (List Task))) (s : AppState) : AppState :=
  let s1 := loadStart s
  let s2 := match outcome with
    | Outcome.ok list => { s1 with todos := list.getD [] }
    | Outcome.failure msg => { s1 with err := errMessage msg "Failed to load tasks" }
  { s2 with loading := false }

/-- Model of the JavaScript `String.prototype.trim` builtin used by
`NewTaskInput.submit`: leading and trailing whitespace characters are
removed. -/
def jsTrim (s : String) : String :=
  String.mk (((s.data.dropWhile Char.isWhitespace).reverse.dropWhile
    Char.isWhitespace).reverse)

/-- `NewTaskInput.submit` (App.js lines 55-65): the title is trimmed;
when the trimmed title is empty (falsy), or the input is busy or
disabled, the handler returns at once, issuing no create request and
surfacing no error; otherwise a create request with the trimmed title
is issued. -/
def submit (title : String) (busy disabled : Bool) : Option String :=
  let trimmed := jsTrim title
  if trimmed = "" || busy || disabled then none else some trimmed

/-- One local state transformation performed by a run of `toggleTask`:
the optimistic flip, the success reconciliation, or the failure
rollback.  Two overlapping toggle runs interleave a sequence of these
on the shared collection. -/
inductive ToggleStep where
  | flip (item : Task)
  | reconcile (updated : Task)
  | rollback (item : Task)
deriving DecidableEq, Repr

/-- Apply one toggle transformation to the collection. -/
def applyToggleStep : ToggleStep → List Task → List Task
  | ToggleStep.flip item, todos => toggleOptimistic item todos
  | ToggleStep.reconcile updated, todos => toggleReconcile updated todos
  | ToggleStep.rollback item, todos => toggleRollback item todos

/-- Apply a sequence of toggle transformations in order: an arbitrary
interleaving of the local steps of overlapping toggle runs. -/
def applyToggleSteps (steps : List ToggleStep) (todos : List Task) : List Task :=
  steps.foldl (fun acc st => applyToggleStep st acc) todos

/-- A concrete task used to instantiate witness statements. -/
def sampleTask : Task :=
  { id := TaskId.num 1, title := "A", completed := false }

/-- A concrete controller state holding `sampleTask`, used to
instantiate witness statements. -/
def sampleState : AppState :=
  { todos := [sampleTask], loading := false, err := "" }

/-- A concrete controller state holding one task of a different id and
a leftover error message, used to instantiate witness statements. -/
def otherState : AppState :=
  { todos := [{ id := TaskId.num 2, title := "B", completed := true }],
    loading := false, err := "old failure" }

/-- The interleaved local steps of two overlapping toggle runs on
`sampleTask`: both optimistic flips fire, then the first run fails and
rolls back while the second run reconciles with its server response. -/
def interleavedToggles : List ToggleStep :=
  [ToggleStep.flip sampleTask,
   ToggleStep.flip { sampleTask with completed := true },
   ToggleStep.rollback sampleTask,
   ToggleStep.reconcile { sampleTask with completed := true }]

/-! ## Helper lemmas -/

/-- Mapping a function that never changes the id leaves the list of ids
unchanged. -/
theorem map_preserves_ids (f : Task → Task) (hf : ∀ t, (f t).id = t.id)
    (todos : List Task) : (todos.map f).map Task.id = todos.map Task.id := by
  rw [List.map_map]
  exact List.map_congr_left fun t _ => hf t

/-- The optimistic toggle flip changes no id. -/
theorem toggleOptimistic_map_id (item : Task) (todos : List Task) :
    (toggleOptimistic item todos).map Task.id = todos.map Task.id := by
  refine map_preserves_ids _ (fun t => ?_) todos
  by_cases h : t.id = item.id <;> simp [h]

/-- The toggle reconciliation changes no id: an entry is replaced only
when the replacement carries the same id. -/
theorem toggleReconcile_map_id (updated : Task) (todos : List Task) :
    (toggleReconcile updated todos).map Task.id = todos.map Task.id := by
  refine map_preserves_ids _ (fun t => ?_) todos
  by_cases h : t.id = updated.id <;> simp [h]

/-- The toggle rollback changes no id. -/
theorem toggleRollback_map_id (item : Task) (todos : List Task) :
    (toggleRollback item todos).map Task.id = todos.map Task.id := by
  refine map_preserves_ids _ (fun t => ?_) todos
  by_cases h : t.id = item.id <;> simp [h]

/-- The `byId` accumulation loop: a `some` result is either a matching
member of the traversed list or the initial accumulator. -/
theorem byId_loop_some (id : TaskId) (t : Task) :
    ∀ (todos : List Task) (acc : Option Task),
      todos.foldl (fun acc u => if u.id = id then some u else acc) acc = some t →
      (t.id = id ∧ t ∈ todos) ∨ acc = some t := by
  intro todos
  induction todos with
  | nil => intro acc hacc; exact Or.inr hacc
  | cons a l ih =>
    intro acc hacc
    rw [List.foldl_cons] at hacc
    rcases ih _ hacc with h1 | h1
    · exact Or.inl ⟨h1.1, List.mem_cons_of_mem a h1.2⟩
    · by_cases ha : a.id = id
      · rw [if_pos ha] at h1
        have ht : t = a := (Option.some_inj.mp h1).symm
        exact Or.inl ⟨ht ▸ ha, ht ▸ List.mem_cons_self a l⟩
      · rw [if_neg ha] at h1
        exact Or.inr h1

/-- A successful `byId` lookup returns a member of the collection whose
id is the requested one. -/
theorem byId_some (todos : List Task) (id : TaskId) (t : Task)
    (h : byId todos id = some t) : t.id = id ∧ t ∈ todos := by
  rcases byId_loop_some id t todos none h with h1 | h1
  · exact h1
  · simp at h1

/-- The `byId` accumulation loop leaves the accumulator untouched when
no traversed entry matches. -/
theorem byId_loop_none (id : TaskId) :
    ∀ (todos : List Task), (∀ t ∈ todos, t.id ≠ id) →
      ∀ acc : Option Task,
        todos.foldl (fun acc u => if u.id = id then some u else acc) acc = acc := by
  intro todos
  induction todos with
  | nil => intro _ acc; rfl
  | cons a l ih =>
    intro hall acc
    rw [List.foldl_cons, if_neg (hall a (List.mem_cons_self a l))]
    exact ih (fun t ht => hall t (List.mem_cons_of_mem a ht)) acc

/-- When no entry carries the id, `byId` finds nothing. -/
theorem byId_none (todos : List Task) (id : TaskId)
    (h : ∀ t ∈ todos, t.id ≠ id) : byId todos id = none :=
  byId_loop_none id todos h none

/-- `e.message || fallback` is never empty when the fallback is not. -/
theorem errMessage_ne_empty (msg fallback : String) (h : fallback ≠ "") :
    errMessage msg fallback ≠ "" := by
  unfold errMessage
  split
  · exact h
  · assumption

/-- The optimistic title replacement changes no id. -/
theorem editOptimistic_map_id (id : TaskId) (title : String) (todos : List Task) :
    (editOptimistic id title todos).map Task.id = todos.map Task.id := by
  refine map_preserves_ids _ (fun t => ?_) todos
  by_cases h : t.id = id <;> simp [h]

/-- The edit rollback changes no id, the snapshot carrying the id it
replaces. -/
theorem editRollback_map_id (id : TaskId) (existing : Task) (todos : List Task)
    (hex : existing.id = id) :
    (editRollback id existing todos).map Task.id = todos.map Task.id := by
  refine map_preserves_ids _ (fun t => ?_) todos
  by_cases h : t.id = id
  · simp [h, hex]
  · simp [h]

/-- A map whose function fixes every member of the list is the
identity on it. -/
theorem map_noop (f : Task → Task) (todos : List Task)
    (hf : ∀ t ∈ todos, f t = t) : todos.map f = todos := by
  induction todos with
  | nil => rfl
  | cons a l ih =>
    rw [List.map_cons, hf a (List.mem_cons_self a l),
      ih fun t ht => hf t (List.mem_cons_of_mem a ht)]

/-! ## Claims -/

/-- Claim C8: an input title whose trimmed form is empty (empty or
whitespace-only) issues no create request when submitted; the
submission is silently ignored, and no error is surfaced (the handler
has no error outlet, and without a request nothing can fail). -/
theorem blank_title_issues_no_create (title : String) (busy disabled : Bool)
    (h : jsTrim title = "") : submit title busy disabled = none := by
  simp [submit, h]

/-- Witness for C8 at the whitespace-only title of the spec. -/
theorem blank_title_issues_no_create_witness :
    jsTrim "  " = "" ∧ submit "  " false false = none :=
  ⟨by decide, blank_title_issues_no_create "  " false false (by decide)⟩

/-- Claim C9: on a non-2xx response `apiFetch` fails with the response
body text, or with a generic message naming the status when the body is
empty or unreadable; on a 204 response it returns a successful empty
result without consulting the parsed body (the conclusion holds for
every `parsedJson`, including an unparseable one) and without
raising. -/
theorem apiFetch_status_handling {α : Type} (res : HttpResponse α) :
    (res.status < 200 ∨ 300 ≤ res.status →
      apiFetch res = ApiResult.error
        (if res.bodyText.getD "" = ""
         then "Request failed with status " ++ toString res.status
         else res.bodyText.getD "")) ∧
    (res.status = 204 → apiFetch res = ApiResult.ok none) := by
  constructor
  · intro h
    have hok : res.ok = false := by
      simp only [HttpResponse.ok, Bool.and_eq_false_iff, decide_eq_false_iff_not, not_le, not_lt]
      omega
    simp [apiFetch, hok]
  · intro h
    have hok : res.ok = true := by
      simp [HttpResponse.ok, h]
    simp [apiFetch, hok, h]

/-- Witness for C9: a 404 with body text fails with that text, and a
204 with an unreadable, unparseable body succeeds with an empty
result. -/
theorem apiFetch_status_handling_witness :
    ((404 : Nat) < 200 ∨ 300 ≤ (404 : Nat)) ∧
    apiFetch { status := 404, bodyText := some "boom", parsedJson := (none : Option Nat) }
      = ApiResult.error "boom" ∧
    apiFetch { status := 204, bodyText := none, parsedJson := (none : Option Nat) }
      = ApiResult.ok none := by
  refine ⟨by decide, ?_, ?_⟩
  · have h := (apiFetch_status_handling
      { status := 404, bodyText := some "boom", parsedJson := (none : Option Nat) }).1
      (by decide)
    simpa using h
  · exact (apiFetch_status_handling
      { status := 204, bodyText := none, parsedJson := (none : Option Nat) }).2 rfl

/-- Claim C6: a successful add prepends the server-returned task, keeps
every previously present entry unchanged in its prior order, and
inserts no optimistic placeholder before the remote call resolves (the
pre-await state `addStart` leaves the collection untouched). -/
theorem add_success_prepends (title : String) (created : Task) (s : AppState) :
    (addStart s).todos = s.todos ∧
    (addTask title (Outcome.ok created) s).todos.head? = some created ∧
    (addTask title (Outcome.ok created) s).todos.tail = s.todos :=
  ⟨rfl, rfl, rfl⟩

/-- Claim C1: for a task present in the collection, a toggle whose
remote update fails leaves, after settlement, some entry carrying that
id, and every entry carrying that id has `completed` equal to its
pre-toggle value. -/
theorem toggle_failure_restores_completed (item : Task) (msg : String)
    (s : AppState) (h : item ∈ s.todos) :
    (∃ t ∈ (toggleTask item (Outcome.failure msg) s).todos, t.id = item.id) ∧
    ∀ t ∈ (toggleTask item (Outcome.failure msg) s).todos,
      t.id = item.id → t.completed = item.completed := by
  have htodos : (toggleTask item (Outcome.failure msg) s).todos
      = toggleRollback item (toggleOptimistic item s.todos) := rfl
  rw [htodos]
  constructor
  · have hid : item.id ∈
        (toggleRollback item (toggleOptimistic item s.todos)).map Task.id := by
      rw [toggleRollback_map_id, toggleOptimistic_map_id]
      exact List.mem_map_of_mem Task.id h
    rcases List.mem_map.mp hid with ⟨t, ht, hteq⟩
    exact ⟨t, ht, hteq⟩
  · intro t ht hid2
    rcases List.mem_map.mp (by simpa [toggleRollback] using ht) with ⟨u, hu, hut⟩
    by_cases hcase : u.id = item.id
    · rw [← hut]
      simp [hcase]
    · rw [← hut] at hid2
      simp only [if_neg hcase] at hid2
      exact absurd hid2 hcase

/-- Witness for C1: toggling the sample task with a failing update
settles with its entry still incomplete. -/
theorem toggle_failure_restores_completed_witness :
    sampleTask ∈ sampleState.todos ∧
    ((∃ t ∈ (toggleTask sampleTask (Outcome.failure "boom") sampleState).todos,
        t.id = sampleTask.id) ∧
      ∀ t ∈ (toggleTask sampleTask (Outcome.failure "boom") sampleState).todos,
        t.id = sampleTask.id → t.completed = sampleTask.completed) :=
  ⟨by decide, toggle_failure_restores_completed sampleTask "boom" sampleState (by decide)⟩

/-- Claim C2: for an id present in the collection, an edit whose remote
update fails leaves, after settlement, some entry carrying that id, and
every entry carrying that id equal — in all fields — to the snapshot
taken before the optimistic title replacement. -/
theorem edit_failure_restores_snapshot (id : TaskId) (title msg : String)
    (s : AppState) (existing : Task) (h : byId s.todos id = some existing) :
    (∃ t ∈ (editTask id title (Outcome.failure msg) s).todos, t.id = id) ∧
    ∀ t ∈ (editTask id title (Outcome.failure msg) s).todos,
      t.id = id → t = existing := by
  obtain ⟨hex, hmem⟩ := byId_some s.todos id existing h
  have htodos : (editTask id title (Outcome.failure msg) s).todos
      = editRollback id existing (editOptimistic id title s.todos) := by
    simp [editTask, h, editStart, editSettle]
  rw [htodos]
  constructor
  · have hid : id ∈
        (editRollback id existing (editOptimistic id title s.todos)).map Task.id := by
      rw [editRollback_map_id id existing _ hex, editOptimistic_map_id]
      exact List.mem_map.mpr ⟨existing, hmem, hex⟩
    rcases List.mem_map.mp hid with ⟨t, ht, hteq⟩
    exact ⟨t, ht, hteq⟩
  · intro t ht htid
    rcases List.mem_map.mp (by simpa [editRollback] using ht) with ⟨u, hu, hut⟩
    by_cases hcase : u.id = id
    · rw [← hut]
      simp [hcase]
    · rw [← hut] at htid
      simp only [if_neg hcase] at htid
      exact absurd htid hcase

/-- Witness for C2: editing the sample task with a failing update
settles with its entry equal to the pre-edit snapshot. -/
theorem edit_failure_restores_snapshot_witness :
    byId sampleState.todos sampleTask.id = some sampleTask ∧
    ((∃ t ∈ (editTask sampleTask.id "B" (Outcome.failure "boom") sampleState).todos,
        t.id = sampleTask.id) ∧
      ∀ t ∈ (editTask sampleTask.id "B" (Outcome.failure "boom") sampleState).todos,
        t.id = sampleTask.id → t = sampleTask) :=
  ⟨by decide,
    edit_failure_restores_snapshot sampleTask.id "B" "boom" sampleState sampleTask (by decide)⟩

/-- Counterexample to C7 as stated: when no entry carries the id,
`editTask` is not *entirely* a no-op — like every handler it first
clears a previously displayed error message, so the controller state
changes. -/
theorem edit_missing_id_clears_error :
    editTask (TaskId.num 1) "B" (Outcome.ok sampleTask)
        { todos := [], loading := false, err := "previous failure" }
      ≠ { todos := [], loading := false, err := "previous failure" } := by
  decide

/-- Claim C7 (amended): when no entry with the given id exists, the
toggle optimistic flip and failure rollback leave the collection
unchanged, and an edit makes no remote call and leaves the collection
unchanged — its only effect is the error-message clearing every
handler performs at its start. -/
theorem missing_id_noop (item : Task) (title : String) (outcome : Outcome Task)
    (s : AppState) (h : ∀ t ∈ s.todos, t.id ≠ item.id) :
    toggleOptimistic item s.todos = s.todos ∧
    toggleRollback item s.todos = s.todos ∧
    (editTask item.id title outcome s).todos = s.todos ∧
    editTask item.id title outcome s = { s with err := "" } := by
  have hby : byId s.todos item.id = none := byId_none s.todos item.id h
  have hedit : editTask item.id title outcome s = { s with err := "" } := by
    simp [editTask, hby]
  refine ⟨map_noop _ _ fun t ht => if_neg (h t ht),
    map_noop _ _ fun t ht => if_neg (h t ht), ?_, hedit⟩
  rw [hedit]

/-- Witness for C7 (amended): toggling and editing an id not present
in `otherState` leaves its collection unchanged and only clears the
leftover error message. -/
theorem missing_id_noop_witness :
    (∀ t ∈ otherState.todos, t.id ≠ sampleTask.id) ∧
    (toggleOptimistic sampleTask otherState.todos = otherState.todos ∧
     toggleRollback sampleTask otherState.todos = otherState.todos ∧
     (editTask sampleTask.id "B" (Outcome.ok sampleTask) otherState).todos
        = otherState.todos ∧
     editTask sampleTask.id "B" (Outcome.ok sampleTask) otherState
        = { otherState with err := "" }) :=
  ⟨by decide,
    missing_id_noop sampleTask "B" (Outcome.ok sampleTask) otherState (by decide)⟩

/-- Counterexample to C3 as stated: a create failure sets no error
message — `addTask` has no try/catch, so after settlement the message
is the empty string cleared at the start, not a displayable error; the
same holds for a delete failure. -/
theorem create_delete_failure_sets_no_error :
    (addTask "A" (Outcome.failure "boom")
        { todos := [], loading := false, err := "old failure" }).err = "" ∧
    (deleteTask (TaskId.num 1) (Outcome.failure "boom")
        { todos := [], loading := false, err := "old failure" }).err = "" := by
  decide

/-- Claim C3 (amended): every handler clears any previous error message
at its start; a failing toggle, edit (on a present id) or load sets a
new non-empty error message; a failing create or delete leaves the
message empty, the rejection propagating to the caller instead. -/
theorem error_policy (item : Task) (id : TaskId) (title msg : String)
    (s : AppState) (existing : Task) (h : byId s.todos id = some existing) :
    (loadStart s).err = "" ∧
    (addStart s).err = "" ∧
    (toggleStart item s).err = "" ∧
    (editStart id title s).err = "" ∧
    (deleteStart s).err = "" ∧
    (toggleTask item (Outcome.failure msg) s).err ≠ "" ∧
    (editTask id title (Outcome.failure msg) s).err ≠ "" ∧
    (loadTasks (Outcome.failure msg) s).err ≠ "" ∧
    (addTask title (Outcome.failure msg) s).err = "" ∧
    (deleteTask id (Outcome.failure msg) s).err = "" := by
  refine ⟨rfl, rfl, rfl, ?_, rfl, ?_, ?_, ?_, rfl, rfl⟩
  · simp [editStart, h]
  · exact errMessage_ne_empty msg "Failed to toggle task" (by decide)
  · have : (editTask id title (Outcome.failure msg) s).err
        = errMessage msg "Failed to update task" := by
      simp [editTask, h, editStart, editSettle]
    rw [this]
    exact errMessage_ne_empty msg "Failed to update task" (by decide)
  · exact errMessage_ne_empty msg "Failed to load tasks" (by decide)

/-- Witness for C3 (amended) at the sample state: the failing edit on a
present id ends with a non-empty message, while the failing create ends
with the message still cleared. -/
theorem error_policy_witness :
    byId sampleState.todos sampleTask.id = some sampleTask ∧
    (editTask sampleTask.id "T" (Outcome.failure "boom") sampleState).err ≠ "" ∧
    (addTask "T" (Outcome.failure "boom") sampleState).err = "" :=
  ⟨by decide,
    (error_policy sampleTask sampleTask.id "T" "boom" sampleState sampleTask
      (by decide)).2.2.2.2.2.2.1,
    (error_policy sampleTask sampleTask.id "T" "boom" sampleState sampleTask
      (by decide)).2.2.2.2.2.2.2.2.1⟩

/-- One toggle transformation changes no id. -/
theorem applyToggleStep_map_id (st : ToggleStep) (todos : List Task) :
    (applyToggleStep st todos).map Task.id = todos.map Task.id := by
  cases st with
  | flip item => exact toggleOptimistic_map_id item todos
  | reconcile updated => exact toggleReconcile_map_id updated todos
  | rollback item => exact toggleRollback_map_id item todos

/-- A sequence of toggle transformations changes no id. -/
theorem applyToggleSteps_map_id (steps : List ToggleStep) (todos : List Task) :
    (applyToggleSteps steps todos).map Task.id = todos.map Task.id := by
  induction steps generalizing todos with
  | nil => rfl
  | cons st steps ih =>
    exact (ih (applyToggleStep st todos)).trans (applyToggleStep_map_id st todos)

/-- Counting matching ids only depends on the list of ids. -/
theorem countP_id_eq (id : TaskId) (todos : List Task) :
    todos.countP (fun t => t.id == id) = (todos.map Task.id).countP (fun i => i == id) := by
  rw [List.countP_map]
  rfl

/-- Claim C4: every interleaving of local toggle transformations —
optimistic flips, server reconciliations and failure rollbacks, in
particular those of two overlapping toggle runs on the id — keeps a
collection holding exactly one entry with that id holding exactly one
entry with that id. -/
theorem toggle_interleaving_preserves_unique_id (steps : List ToggleStep)
    (id : TaskId) (todos : List Task)
    (h : todos.countP (fun t => t.id == id) = 1) :
    (applyToggleSteps steps todos).countP (fun t => t.id == id) = 1 := by
  rw [countP_id_eq, applyToggleSteps_map_id, ← countP_id_eq]
  exact h

/-- Witness for C4: two interleaved toggle runs on the sample task
leave its state with exactly one entry carrying its id. -/
theorem toggle_interleaving_preserves_unique_id_witness :
    sampleState.todos.countP (fun t => t.id == sampleTask.id) = 1 ∧
    (applyToggleSteps interleavedToggles sampleState.todos).countP
      (fun t => t.id == sampleTask.id) = 1 :=
  ⟨by decide,
    toggle_interleaving_preserves_unique_id interleavedToggles sampleTask.id
      sampleState.todos (by decide)⟩

/-- Claim C5: in a collection with pairwise distinct ids containing an
entry with the id, a successful delete removes exactly that one entry
and leaves every other entry unchanged in its prior order. -/
theorem delete_removes_exactly_one (id : TaskId) (todos : List Task)
    (hu : todos.Pairwise fun a b => a.id ≠ b.id)
    (hm : ∃ t ∈ todos, t.id = id) :
    ∃ pre t post, todos = pre ++ t :: post ∧ t.id = id ∧
      (∀ u ∈ pre, u.id ≠ id) ∧ (∀ u ∈ post, u.id ≠ id) ∧
      deleteTaskSuccess id todos = pre ++ post := by
  induction todos with
  | nil =>
    obtain ⟨t, ht, _⟩ := hm
    exact absurd ht (List.not_mem_nil t)
  | cons a l ih =>
    obtain ⟨ha, hl⟩ := List.pairwise_cons.mp hu
    by_cases hcase : a.id = id
    · refine ⟨[], a, l, by simp, hcase, by simp, ?_, ?_⟩
      · intro u hu2 he
        exact ha u hu2 (hcase.trans he.symm)
      · simp only [deleteTaskSuccess, List.filter_cons, List.nil_append]
        rw [if_neg (by simp [hcase])]
        apply List.filter_eq_self.mpr
        intro u hu2
        simp only [bne_iff_ne, ne_eq]
        exact fun he => ha u hu2 (hcase.trans he.symm)
    · have hm2 : ∃ t ∈ l, t.id = id := by
        obtain ⟨t, ht, htid⟩ := hm
        rcases List.mem_cons.mp ht with rfl | htl
        · exact absurd htid hcase
        · exact ⟨t, htl, htid⟩
      obtain ⟨pre, t, post, heq, htid, hpre, hpost, hdel⟩ := ih hl hm2
      simp only [deleteTaskSuccess] at hdel
      refine ⟨a :: pre, t, post, by rw [heq]; rfl, htid, ?_, hpost, ?_⟩
      · intro u hu2
        rcases List.mem_cons.mp hu2 with rfl | hup
        · exact hcase
        · exact hpre u hup
      · simp only [deleteTaskSuccess, List.filter_cons]
        rw [if_pos (by simp [hcase]), hdel]
        rfl

/-- Witness for C5: deleting the sample task from a two-entry
collection with distinct ids. -/
theorem delete_removes_exactly_one_witness :
    ((sampleTask :: otherState.todos).Pairwise fun a b => a.id ≠ b.id) ∧
    (∃ t ∈ sampleTask :: otherState.todos, t.id = sampleTask.id) ∧
    (∃ pre t post, sampleTask :: otherState.todos = pre ++ t :: post ∧
      t.id = sampleTask.id ∧ (∀ u ∈ pre, u.id ≠ sampleTask.id) ∧
      (∀ u ∈ post, u.id ≠ sampleTask.id) ∧
      deleteTaskSuccess sampleTask.id (sampleTask :: otherState.todos) = pre ++ post) :=
  ⟨by decide, by decide,
    delete_removes_exactly_one sampleTask.id (sampleTask :: otherState.todos)
      (by decide) (by decide)⟩

/-- Claim C10: the toggle optimistic flip and failure rollback relate
input and output collections entry-by-entry, in place: each result
entry keeps the id and title of the corresponding input entry; an
entry of another id is kept exactly; an entry carrying the toggled id
changes only in `completed` — the flip negates the current value and
the rollback writes the pre-toggle value carried by `item`, never
restoring other fields, so a concurrently edited title survives a
toggle rollback (unlike the edit rollback, which restores a whole
snapshot). -/
theorem toggle_touches_only_completed (item : Task) (todos : List Task) :
    List.Forall₂ (fun t r => r.id = t.id ∧ r.title = t.title ∧
        (t.id ≠ item.id → r = t) ∧
        (t.id = item.id → r.completed = !t.completed))
      todos (toggleOptimistic item todos) ∧
    List.Forall₂ (fun t r => r.id = t.id ∧ r.title = t.title ∧
        (t.id ≠ item.id → r = t) ∧
        (t.id = item.id → r.completed = item.completed))
      todos (toggleRollback item todos) := by
  constructor
  · rw [toggleOptimistic, List.forall₂_map_right_iff, List.forall₂_same]
    intro t _
    by_cases h : t.id = item.id <;> simp [h]
  · rw [toggleRollback, List.forall₂_map_right_iff, List.forall₂_same]
    intro t _
    by_cases h : t.id = item.id <;> simp [h]

end TodoApp
